import Mathlib

/-!
Verification of the PublicAutoTrade trading system core against its design
specification.  The Python source is shallowly embedded: timestamps are
minutes (ℕ, exchange-local), prices and quantities are exact rationals (ℚ,
standing for the binary doubles the code manipulates; concrete float
literals are embedded as the exact dyadic rational value of the double),
fallible operations return `Except`/`Option`, and the mutable per-strategy
runtime state is threaded explicitly.
-/

namespace PublicAutoTrade

/-! ### Data model

A raw one-minute bar, one row of the per-strategy pandas buffer.  `ts` is the
row's DatetimeIndex entry at minute resolution (minutes since the epoch,
exchange-local), so the wall-clock minute-of-hour is `ts % 60`. -/

structure RawRow where
  ts : ℕ
  symbol : String
  «open» : ℚ
  high : ℚ
  low : ℚ
  close : ℚ
  volume : ℚ

/-- The shape of a pandas DataFrame as far as `aggregate_time_frame`'s
validation observes it: its column set, whether its index is a
DatetimeIndex, and its rows. -/
structure DataFrame where
  cols : List String
  indexIsDatetime : Bool
  rows : List RawRow

/-- `required_cols` of aggregateTimeFrames.py line 71. -/
def requiredCols : List String :=
  ["symbol", "open", "high", "low", "close", "volume"]

/-! ### tradeBot/functions/aggregateTimeFrames.py -/

namespace AggregateTimeFrames

/-- One row of the resampled output frame, before/after `dropna`.  `key` is
the bucket index: the row's output timestamp (bucket start) is `key * T`
minutes, i.e. wall-clock aligned.  OHLC fields are `Option` because pandas
fills buckets containing no raw rows with NaN (`none` here); `volume` is the
plain sum because the sum of an empty group is 0, never NaN. -/
structure ResampledRow where
  key : ℕ
  symbol : Option String
  «open» : Option ℚ
  high : Option ℚ
  low : Option ℚ
  close : Option ℚ
  volume : ℚ

/-- First element after folding `max` over the rest: the value pandas
`.resample(rule).max()` assigns to a bucket with at least one row. -/
def foldMaxQ : List ℚ → Option ℚ
  | [] => none
  | x :: xs => some (xs.foldl max x)

/-- `.resample(rule).min()` on a bucket, `none` for an empty bucket. -/
def foldMinQ : List ℚ → Option ℚ
  | [] => none
  | x :: xs => some (xs.foldl min x)

/-- The raw rows falling in bucket `k` (timestamps `ts` with `ts / T = k`,
i.e. `k*T ≤ ts < (k+1)*T`): the constituents of one resample bucket. -/
def groupRows (T k : ℕ) (rows : List RawRow) : List RawRow :=
  rows.filter (fun r => r.ts / T = k)

/-- The resampled row for bucket `k`: `first`/`max`/`min`/`last`/`sum`
exactly as lines 89-94 compute per column. -/
def resampleRow (T k : ℕ) (rows : List RawRow) : ResampledRow :=
  let g := groupRows T k rows
  { key := k
    symbol := g.head?.map (·.symbol)
    «open» := g.head?.map (·.«open»)
    high := foldMaxQ (g.map (·.high))
    low := foldMinQ (g.map (·.low))
    close := g.getLast?.map (·.close)
    volume := (g.map (·.volume)).sum }

/-- Smallest bucket index among the rows (`none` when there are no rows). -/
def minKey (T : ℕ) (rows : List RawRow) : Option ℕ :=
  match rows.map (fun r => r.ts / T) with
  | [] => none
  | x :: xs => some (xs.foldl min x)

/-- Largest bucket index among the rows (`none` when there are no rows). -/
def maxKey (T : ℕ) (rows : List RawRow) : Option ℕ :=
  match rows.map (fun r => r.ts / T) with
  | [] => none
  | x :: xs => some (xs.foldl max x)

/-- The contiguous range of bucket indices pandas generates when resampling:
every bucket from the first row's bucket to the last row's bucket, including
buckets containing no rows (those get NaN OHLC fields). -/
def binRange (T : ℕ) (rows : List RawRow) : List ℕ :=
  match minKey T rows, maxKey T rows with
  | some lo, some hi => (List.range (hi + 1 - lo)).map (fun i => lo + i)
  | _, _ => []

/-- The full resampled frame `out` of lines 105-112. -/
def resampleAll (T : ℕ) (rows : List RawRow) : List ResampledRow :=
  (binRange T rows).map (fun k => resampleRow T k rows)

/-- `out.dropna(subset=["open", "high", "low", "close"])` of line 123. -/
def dropnaOHLC (l : List ResampledRow) : List ResampledRow :=
  l.filter (fun r =>
    r.«open».isSome && r.high.isSome && r.low.isSome && r.close.isSome)

/-- `aggregate_time_frame(df, aggregation)`: the validation chain of
lines 35-76 in source order (empty fast path, index type, positive
aggregation, enough data, required columns), then resample + dropna.
A raised `ValueError` is `.error`; a returned frame is `.ok`. -/
def aggregate_time_frame (df : DataFrame) (aggregation : ℤ) :
    Except String (List ResampledRow) :=
  if df.rows.isEmpty then .ok []
  else if !df.indexIsDatetime then
    .error "DataFrame index must be a DatetimeIndex"
  else if aggregation ≤ 0 then .error "Aggregation must be positive"
  else if df.rows.length < aggregation.toNat then .ok []
  else if !(requiredCols.all (fun c => df.cols.contains c)) then
    .error "Missing required columns"
  else .ok (dropnaOHLC (resampleAll aggregation.toNat df.rows))

end AggregateTimeFrames

/-! ### account/acc.py and backend/queries/active_positions.py -/

namespace Account

/-- `round(x, ndigits)` of Python on the exact value of a double: round to
the nearest multiple of `10^(-ndigits)`, ties to even.  (Python additionally
re-converts the decimal result to the nearest double; the theorems state the
exact decimal values, which is what the doubles compare equal to.) -/
def roundHalfEven (q : ℚ) : ℤ :=
  let n : ℤ := ⌊q⌋
  if q - n < 1 / 2 then n
  else if 1 / 2 < q - n then n + 1
  else if n % 2 = 0 then n else n + 1

/-- `round(q, ndigits)`. -/
def pyRound (ndigits : ℕ) (q : ℚ) : ℚ :=
  (roundHalfEven (q * 10 ^ ndigits) : ℚ) / 10 ^ ndigits

/-- `round_price` of acc.py lines 10-14. -/
def round_price (price : ℚ) : ℚ :=
  if price < 1 then pyRound 4 price else pyRound 2 price

inductive OrderType where
  | MARKET
  | LIMIT

/-- The price handling of `send_orders` lines 321-323: the outbound price is
`round_price(price)`, and the order is a market order exactly when that
rounded price is 0, a limit order otherwise. -/
def send_orders_pricing (price : ℚ) : ℚ × OrderType :=
  let p := round_price price
  (p, if p = 0 then OrderType.MARKET else OrderType.LIMIT)

/-- One row of the persisted `active_positions` table. -/
structure ActivePosition where
  strategy_id : ℤ
  order_id : String
  quantity : ℚ
  entry_price : ℚ

/-- What `get_orders` yields for one order id: `status` and
`filledQuantity` of the brokerage response.  `get_orders` catches every
network/JSON error internally and returns `None`, so a lookup outcome is an
`Option OrderInfo`. -/
structure OrderInfo where
  status : String
  filledQuantity : ℚ

/-- The brokerage calls the SELL loop issues (their results are discarded by
the source). -/
inductive BrokerAction where
  | sellOrder (qty price : ℚ)
  | cancelOrder (order_id : String)

/-- `get_order_id_list(strategy_id)` of active_positions.py lines 35-65:
all order ids whose row has the given strategy id. -/
def get_order_id_list (db : List ActivePosition) (strategy_id : ℤ) :
    List String :=
  (db.filter (fun p => p.strategy_id = strategy_id)).map (·.order_id)

/-- `delete_active_positions(strategy_id)` of active_positions.py
lines 68-93: remove every row with the given strategy id. -/
def delete_active_positions (db : List ActivePosition) (strategy_id : ℤ) :
    List ActivePosition :=
  db.filter (fun p => ¬p.strategy_id = strategy_id)

/-- The SELL branch of `send_strategy_orders` (acc.py lines 438-469):
iterate every known order id; a failed lookup is skipped (`continue`); a
FILLED order with positive filled quantity gets a sell order (one-day
expiry); any other status gets a cancellation; the results of those calls
are ignored; afterwards all rows for the strategy id are deleted.  Returns
the new table and the brokerage actions issued. -/
def sellCycle (db : List ActivePosition) (strategy_id : ℤ) (price : ℚ)
    (lookup : String → Option OrderInfo) :
    List ActivePosition × List BrokerAction :=
  let actions := (get_order_id_list db strategy_id).filterMap (fun oid =>
    match lookup oid with
    | none => none
    | some order =>
      if order.status = "FILLED" then
        if order.filledQuantity > 0 then
          some (BrokerAction.sellOrder order.filledQuantity price)
        else none
      else some (BrokerAction.cancelOrder oid))
  (delete_active_positions db strategy_id, actions)

/-- The BUY branch of `send_strategy_orders` (acc.py lines 422-435):
`placeResult` is the order id returned by `send_orders` (`none` = placement
failure).  On success one row is inserted and "BUY completed" returned; on
failure the table is untouched and `None` returned (no retry).  `price` is
already rounded by line 416. -/
def buyCycle (db : List ActivePosition) (strategy_id : ℤ)
    (quantity price : ℚ) (placeResult : Option String) :
    List ActivePosition × Option String :=
  match placeResult with
  | some order_id =>
      (db ++ [⟨strategy_id, order_id, quantity, price⟩], some "BUY completed")
  | none => (db, none)

end Account

/-! ### tradeBot/get_data/schwab_automatic_stream.py -/

namespace SchwabStream

open AggregateTimeFrames

/-- `its_time(minute, time_frame)` of lines 194-196. -/
def its_time (minute : ℕ) (time_frame : ℕ) : Bool :=
  minute % time_frame == 0

/-- Comparison used to model `sort_index()` on the buffer. -/
def tsLe (a b : RawRow) : Bool := a.ts ≤ b.ts

/-- The buffer update of lines 296-319: build a one-row frame for the bar,
`pd.concat` it onto the buffer, and `sort_index()`.  There is no
deduplication step. -/
def append_bar (buf : List RawRow) (bar : RawRow) : List RawRow :=
  (buf ++ [bar]).mergeSort tsLe

/-- Per-strategy runtime state held in `df_dict`: the raw bar buffer and the
`itsTime` boundary latch. -/
structure StratState where
  df : List RawRow
  itsTime : Bool

/-- What the evaluation stage is fed: for `time_frame == 1` the raw buffer
itself (line 328), otherwise the result of `aggregate_time_frame`
(lines 330-333). -/
inductive SeriesSource where
  | raw (rows : List RawRow)
  | agg (result : Except String (List ResampledRow))

/-- `tosDelay` of line 339. -/
def tosDelay : ℕ := 1

/-- Whether the series is nonempty (`candle_time_frame_df.empty` gate of
line 335); a raised aggregation error aborts the cycle (caught at line 417),
hence counts as not reaching evaluation. -/
def seriesNonempty : SeriesSource → Bool
  | .raw rows => !rows.isEmpty
  | .agg (.ok bars) => !bars.isEmpty
  | .agg (.error _) => false

/-- Outcome of one `on_bar` cycle for one strategy: the new state, the
series handed onward (`none` when the bar was discarded at the latch gate),
and whether the strategy-execution block was reached (series nonempty and
the `its_time(bar_min + tosDelay, time_frame)` delay gate passed). -/
structure StepResult where
  state : StratState
  series : Option SeriesSource
  evaluated : Bool

/-- One iteration of the per-strategy body of `on_bar` (lines 274-340) for a
bar whose symbol matches the strategy: the `itsTime` latch gate of
lines 283-293 (while unset, a bar at a non-boundary minute is dropped via
`continue`, one at a boundary minute sets the latch), then the buffer
append, the aggregation choice, the emptiness gate, and the processing-delay
gate. -/
def on_bar_step (time_frame : ℕ) (st : StratState) (bar : RawRow) :
    StepResult :=
  let bar_min := bar.ts % 60
  let gate : Option StratState :=
    if st.itsTime then some st
    else if its_time bar_min time_frame then some { st with itsTime := true }
    else none
  match gate with
  | none => { state := st, series := none, evaluated := false }
  | some st1 =>
    let buf := append_bar st1.df bar
    let src :=
      if time_frame = 1 then SeriesSource.raw buf
      else SeriesSource.agg
        (aggregate_time_frame ⟨requiredCols, true, buf⟩ (time_frame : ℤ))
    { state := { df := buf, itsTime := st1.itsTime }
      series := some src
      evaluated := seriesNonempty src && its_time (bar_min + tosDelay) time_frame }

/-- `_import_strategy` of lines 30-103 over an abstract resolver (the
dynamic module lookup): already-cached names are skipped; a resolvable name
is added to the cache with success `true`; an unresolvable one leaves the
cache unchanged and reports `false` (the error is logged, nothing raised). -/
def importStrategy {Φ : Type} (resolver : String → Option Φ)
    (cache : List (String × Φ)) (name : String) :
    List (String × Φ) × Bool :=
  if (cache.lookup name).isSome then (cache, true)
  else
    match resolver name with
    | some f => (cache ++ [(name, f)], true)
    | none => (cache, false)

/-- One iteration of the `_import_all_strategies` loop: run the single
module import and bump the success or failure counter. -/
def importStep {Φ : Type} (resolver : String → Option Φ)
    (acc : List (String × Φ) × ℕ × ℕ) (name : String) :
    List (String × Φ) × ℕ × ℕ :=
  let r := importStrategy resolver acc.1 name
  if r.2 then (r.1, acc.2.1 + 1, acc.2.2) else (r.1, acc.2.1, acc.2.2 + 1)

/-- `_import_all_strategies` of lines 106-136: fold `_import_strategy` over
the unique configured names, counting successes and failures.  The function
always returns normally (failures are only logged and counted). -/
def importAllStrategies {Φ : Type} (resolver : String → Option Φ)
    (names : List String) : List (String × Φ) × ℕ × ℕ :=
  names.dedup.foldl (importStep resolver) ([], 0, 0)

/-- What the evaluation block of lines 341-350 does with the cache lookup:
a missing function is detected there, logged, and the cycle skipped
(`continue`); otherwise the strategy function is run. -/
inductive DispatchOutcome (Φ : Type) where
  | skippedMissing
  | ran (f : Φ)

/-- `STRATEGY_CACHE.get(strategy_name)` dispatch of lines 343-352. -/
def dispatchStrategy {Φ : Type} (cache : List (String × Φ)) (name : String) :
    DispatchOutcome Φ :=
  match cache.lookup name with
  | none => DispatchOutcome.skippedMissing
  | some f => DispatchOutcome.ran f

end SchwabStream

/-! ### Helper lemmas -/

namespace AggregateTimeFrames

theorem foldl_max_mem {α : Type} [LinearOrder α] (xs : List α) :
    ∀ x : α, xs.foldl max x ∈ x :: xs := by
  induction xs with
  | nil => intro x; simp
  | cons y ys ih =>
    intro x
    simp only [List.foldl_cons]
    rcases List.mem_cons.mp (ih (max x y)) with h1 | h1
    · rcases max_choice x y with hc | hc
      · rw [h1, hc]; exact List.mem_cons_self _ _
      · rw [h1, hc]; exact List.mem_cons_of_mem _ (List.mem_cons_self _ _)
    · exact List.mem_cons_of_mem _ (List.mem_cons_of_mem _ h1)

theorem le_foldl_max {α : Type} [LinearOrder α] (xs : List α) :
    ∀ x : α, ∀ y ∈ x :: xs, y ≤ xs.foldl max x := by
  induction xs with
  | nil => intro x y hy; rw [List.mem_singleton] at hy; simp [hy]
  | cons z zs ih =>
    intro x y hy
    simp only [List.foldl_cons]
    rcases List.mem_cons.mp hy with rfl | hy'
    · exact le_trans (le_max_left y z) (ih (max y z) _ (List.mem_cons_self _ _))
    · rcases List.mem_cons.mp hy' with rfl | hy''
      · exact le_trans (le_max_right x y) (ih (max x y) _ (List.mem_cons_self _ _))
      · exact ih (max x z) y (List.mem_cons_of_mem _ hy'')

theorem foldl_min_mem {α : Type} [LinearOrder α] (xs : List α) :
    ∀ x : α, xs.foldl min x ∈ x :: xs := by
  induction xs with
  | nil => intro x; simp
  | cons y ys ih =>
    intro x
    simp only [List.foldl_cons]
    rcases List.mem_cons.mp (ih (min x y)) with h1 | h1
    · rcases min_choice x y with hc | hc
      · rw [h1, hc]; exact List.mem_cons_self _ _
      · rw [h1, hc]; exact List.mem_cons_of_mem _ (List.mem_cons_self _ _)
    · exact List.mem_cons_of_mem _ (List.mem_cons_of_mem _ h1)

theorem foldl_min_le {α : Type} [LinearOrder α] (xs : List α) :
    ∀ x : α, ∀ y ∈ x :: xs, xs.foldl min x ≤ y := by
  induction xs with
  | nil => intro x y hy; rw [List.mem_singleton] at hy; simp [hy]
  | cons z zs ih =>
    intro x y hy
    simp only [List.foldl_cons]
    rcases List.mem_cons.mp hy with rfl | hy'
    · exact le_trans (ih (min y z) _ (List.mem_cons_self _ _)) (min_le_left y z)
    · rcases List.mem_cons.mp hy' with rfl | hy''
      · exact le_trans (ih (min x y) _ (List.mem_cons_self _ _)) (min_le_right x y)
      · exact ih (min x z) y (List.mem_cons_of_mem _ hy'')

theorem foldMaxQ_spec (l : List ℚ) (hl : l ≠ []) :
    ∃ m, foldMaxQ l = some m ∧ m ∈ l ∧ ∀ y ∈ l, y ≤ m := by
  cases l with
  | nil => exact absurd rfl hl
  | cons x xs => exact ⟨xs.foldl max x, rfl, foldl_max_mem xs x, le_foldl_max xs x⟩

theorem foldMinQ_spec (l : List ℚ) (hl : l ≠ []) :
    ∃ m, foldMinQ l = some m ∧ m ∈ l ∧ ∀ y ∈ l, m ≤ y := by
  cases l with
  | nil => exact absurd rfl hl
  | cons x xs => exact ⟨xs.foldl min x, rfl, foldl_min_mem xs x, foldl_min_le xs x⟩

/-- Every row of a successful aggregation result draws its fields from the
raw rows of its own wall-clock-aligned bucket: open/close from the first and
last constituent, high/low as attained extrema, volume as the sum, and every
constituent's timestamp inside the bucket's window. -/
theorem aggregate_mem_spec (df : DataFrame) (T : ℤ) (out : List ResampledRow)
    (hok : aggregate_time_frame df T = .ok out) (r : ResampledRow)
    (hr : r ∈ out) :
    groupRows T.toNat r.key df.rows ≠ [] ∧
    r.«open» = (groupRows T.toNat r.key df.rows).head?.map (·.«open») ∧
    (∃ m, r.high = some m ∧ m ∈ (groupRows T.toNat r.key df.rows).map (·.high) ∧
      ∀ y ∈ (groupRows T.toNat r.key df.rows).map (·.high), y ≤ m) ∧
    (∃ m, r.low = some m ∧ m ∈ (groupRows T.toNat r.key df.rows).map (·.low) ∧
      ∀ y ∈ (groupRows T.toNat r.key df.rows).map (·.low), m ≤ y) ∧
    r.close = (groupRows T.toNat r.key df.rows).getLast?.map (·.close) ∧
    r.volume = ((groupRows T.toNat r.key df.rows).map (·.volume)).sum ∧
    ∀ r' ∈ groupRows T.toNat r.key df.rows,
      r.key * T.toNat ≤ r'.ts ∧ r'.ts < (r.key + 1) * T.toNat := by
  unfold aggregate_time_frame at hok
  split_ifs at hok with h1 h2 h3 h4 h5
  all_goals try
    (injection hok with hok; subst hok;
      exact absurd hr (List.not_mem_nil r))
  -- only the main branch remains: out is the dropna of the resampled frame
  have hT : 0 < T := lt_of_not_le h3
  have hTpos : 0 < T.toNat := by omega
  simp only [Except.ok.injEq] at hok
  subst hok
  unfold dropnaOHLC at hr
  rw [List.mem_filter] at hr
  obtain ⟨hmem, hpred⟩ := hr
  unfold resampleAll at hmem
  rw [List.mem_map] at hmem
  obtain ⟨k, hkbin, hkr⟩ := hmem
  subst hkr
  have hkey : (resampleRow T.toNat k df.rows).key = k := rfl
  rw [hkey]
  have hopen : (resampleRow T.toNat k df.rows).«open» =
      (groupRows T.toNat k df.rows).head?.map (·.«open») := rfl
  have hG : groupRows T.toNat k df.rows ≠ [] := by
    intro hnil
    rw [hopen, hnil] at hpred
    simp [resampleRow, hnil] at hpred
  refine ⟨hG, hopen, ?_, ?_, rfl, rfl, ?_⟩
  · have hmap : (groupRows T.toNat k df.rows).map (·.high) ≠ [] := by
      simpa using hG
    obtain ⟨m, hm, hmem', hub⟩ := foldMaxQ_spec _ hmap
    exact ⟨m, hm, hmem', hub⟩
  · have hmap : (groupRows T.toNat k df.rows).map (·.low) ≠ [] := by
      simpa using hG
    obtain ⟨m, hm, hmem', hlb⟩ := foldMinQ_spec _ hmap
    exact ⟨m, hm, hmem', hlb⟩
  · intro r' hr'
    unfold groupRows at hr'
    rw [List.mem_filter] at hr'
    obtain ⟨-, hdiv⟩ := hr'
    have hdiv' : r'.ts / T.toNat = k := by simpa using hdiv
    constructor
    · exact (Nat.le_div_iff_mul_le hTpos).mp (le_of_eq hdiv'.symm)
    · exact (Nat.div_lt_iff_lt_mul hTpos).mp (by omega)

/-- The spec's worked example: 10 one-minute bars starting at an aligned
minute (09:30, minute 570 of the day), open/low = i, high/close = i+1,
volume 100 each. -/
def exampleRows : List RawRow :=
  [⟨570, "test", 0, 1, 0, 1, 100⟩, ⟨571, "test", 1, 2, 1, 2, 100⟩,
   ⟨572, "test", 2, 3, 2, 3, 100⟩, ⟨573, "test", 3, 4, 3, 4, 100⟩,
   ⟨574, "test", 4, 5, 4, 5, 100⟩, ⟨575, "test", 5, 6, 5, 6, 100⟩,
   ⟨576, "test", 6, 7, 6, 7, 100⟩, ⟨577, "test", 7, 8, 7, 8, 100⟩,
   ⟨578, "test", 8, 9, 8, 9, 100⟩, ⟨579, "test", 9, 10, 9, 10, 100⟩]

def exampleDf : DataFrame := ⟨requiredCols, true, exampleRows⟩

/-- Expected first aggregated 5-minute bar of the worked example. -/
def exampleBar1 : ResampledRow :=
  ⟨114, some "test", some 0, some 5, some 0, some 5, 500⟩

/-- Expected second aggregated 5-minute bar of the worked example. -/
def exampleBar2 : ResampledRow :=
  ⟨115, some "test", some 5, some 10, some 5, some 10, 500⟩

/-- C2's failing input: the first 6 bars of the worked example (minutes
570-575), so the second 5-minute bucket holds a single raw bar. -/
def underfullRows : List RawRow :=
  [⟨570, "test", 0, 1, 0, 1, 100⟩, ⟨571, "test", 1, 2, 1, 2, 100⟩,
   ⟨572, "test", 2, 3, 2, 3, 100⟩, ⟨573, "test", 3, 4, 3, 4, 100⟩,
   ⟨574, "test", 4, 5, 4, 5, 100⟩, ⟨575, "test", 5, 6, 5, 6, 100⟩]

def underfullDf : DataFrame := ⟨requiredCols, true, underfullRows⟩

/-- The aggregated bar the code emits for the trailing one-bar bucket of
`underfullRows`. -/
def trailingBar : ResampledRow :=
  ⟨115, some "test", some 5, some 6, some 5, some 6, 100⟩

end AggregateTimeFrames

namespace Account

theorem roundHalfEven_eq_floor_add_one (q : ℚ) (n : ℤ) (hfl : ⌊q⌋ = n)
    (hfrac : 1 / 2 < q - (n : ℚ)) : roundHalfEven q = n + 1 := by
  show (if q - ((⌊q⌋ : ℤ) : ℚ) < 1 / 2 then ⌊q⌋
        else if 1 / 2 < q - ((⌊q⌋ : ℤ) : ℚ) then ⌊q⌋ + 1
        else if ⌊q⌋ % 2 = 0 then ⌊q⌋ else ⌊q⌋ + 1) = n + 1
  rw [hfl, if_neg (by linarith), if_pos hfrac]

theorem round_price_below_one (p : ℚ) (h : p < 1) :
    round_price p = pyRound 4 p := by
  simp only [round_price]
  rw [if_pos h]

theorem round_price_at_least_one (p : ℚ) (h : 1 ≤ p) :
    round_price p = pyRound 2 p := by
  simp only [round_price]
  rw [if_neg (not_lt.mpr h)]

/-- The exact value of the IEEE-754 double written `0.12345` in the source's
caller: it lies strictly above the decimal midpoint `0.12345`, so Python
rounds it up to `0.1235`. -/
def double_0_12345 : ℚ := 2223877495995551 / 18014398509481984

/-- The exact value of the double written `12.345`. -/
def double_12_345 : ℚ := 6949617174986097 / 562949953421312

theorem round_price_double_0_12345 :
    round_price double_0_12345 = 1235 / 10000 := by
  have hlt : double_0_12345 < 1 := by norm_num [double_0_12345]
  rw [round_price_below_one _ hlt]
  have hfl : ⌊(double_0_12345 * 10 ^ 4 : ℚ)⌋ = 1234 := by
    rw [Int.floor_eq_iff]
    constructor <;> norm_num [double_0_12345]
  have hre : roundHalfEven (double_0_12345 * 10 ^ 4) = 1235 :=
    roundHalfEven_eq_floor_add_one _ 1234 hfl (by norm_num [double_0_12345])
  simp only [pyRound, hre]
  norm_num

theorem round_price_double_12_345 :
    round_price double_12_345 = 1235 / 100 := by
  have hge : (1 : ℚ) ≤ double_12_345 := by norm_num [double_12_345]
  rw [round_price_at_least_one _ hge]
  have hfl : ⌊(double_12_345 * 10 ^ 2 : ℚ)⌋ = 1234 := by
    rw [Int.floor_eq_iff]
    constructor <;> norm_num [double_12_345]
  have hre : roundHalfEven (double_12_345 * 10 ^ 2) = 1235 :=
    roundHalfEven_eq_floor_add_one _ 1234 hfl (by norm_num [double_12_345])
  simp only [pyRound, hre]
  norm_num

theorem round_price_zero : round_price 0 = 0 := by
  have h : (0 : ℚ) < 1 := by norm_num
  rw [round_price_below_one _ h]
  have hfl : ⌊((0 : ℚ) * 10 ^ 4 : ℚ)⌋ = 0 := by norm_num
  have hre : roundHalfEven ((0 : ℚ) * 10 ^ 4) = 0 := by
    show (if (0 : ℚ) * 10 ^ 4 - ((⌊((0 : ℚ) * 10 ^ 4)⌋ : ℤ) : ℚ) < 1 / 2 then
            ⌊((0 : ℚ) * 10 ^ 4)⌋
          else if 1 / 2 < (0 : ℚ) * 10 ^ 4 - ((⌊((0 : ℚ) * 10 ^ 4)⌋ : ℤ) : ℚ) then
            ⌊((0 : ℚ) * 10 ^ 4)⌋ + 1
          else if ⌊((0 : ℚ) * 10 ^ 4)⌋ % 2 = 0 then ⌊((0 : ℚ) * 10 ^ 4)⌋
          else ⌊((0 : ℚ) * 10 ^ 4)⌋ + 1) = 0
    rw [hfl, if_pos (by norm_num)]
  simp only [pyRound, hre]
  norm_num

/-- A filtered list re-filtered with the complementary predicate is empty. -/
theorem filter_not_filter {α : Type} (P : α → Prop) [DecidablePred P]
    (l : List α) : (l.filter (fun a => ¬P a)).filter (fun a => P a) = [] := by
  induction l with
  | nil => rfl
  | cons x xs ih => by_cases h : P x <;> simp [h, ih]

end Account

namespace SchwabStream

theorem append_bar_length (buf : List RawRow) (bar : RawRow) :
    (append_bar buf bar).length = buf.length + 1 := by
  simp [append_bar, List.length_mergeSort]

theorem tsLe_trans (a b c : RawRow) (h1 : tsLe a b = true)
    (h2 : tsLe b c = true) : tsLe a c = true := by
  simp only [tsLe, decide_eq_true_eq] at *
  omega

theorem tsLe_total (a b : RawRow) : (tsLe a b || tsLe b a) = true := by
  simp only [tsLe, Bool.or_eq_true, decide_eq_true_eq]
  omega

theorem append_bar_sorted (buf : List RawRow) (bar : RawRow) :
    List.Pairwise (fun a b => a.ts ≤ b.ts) (append_bar buf bar) := by
  have h := List.sorted_mergeSort tsLe_trans tsLe_total (buf ++ [bar])
  exact h.imp (fun hab => by simpa [tsLe] using hab)

theorem importAll_count_aux {Φ : Type} (resolver : String → Option Φ) :
    ∀ (l : List String) (acc : List (String × Φ) × ℕ × ℕ),
      (l.foldl (importStep resolver) acc).2.1 +
        (l.foldl (importStep resolver) acc).2.2 =
      acc.2.1 + acc.2.2 + l.length := by
  intro l
  induction l with
  | nil => intro acc; simp
  | cons n ns ih =>
    intro acc
    simp only [List.foldl_cons, List.length_cons]
    rw [ih]
    cases hb : (importStrategy resolver acc.1 n).2 <;>
      simp [importStep, hb] <;> omega

theorem importAll_fail_all_aux {Φ : Type} :
    ∀ (l : List String) (s f : ℕ),
      l.foldl (importStep (Φ := Φ) (fun _ => none)) ([], s, f) =
        ([], s, f + l.length) := by
  intro l
  induction l with
  | nil => intro s f; simp
  | cons n ns ih =>
    intro s f
    have h1 : importStep (Φ := Φ) (fun _ => none) ([], s, f) n = ([], s, f + 1) := by
      simp [importStep, importStrategy]
    have h2 : f + 1 + ns.length = f + (ns.length + 1) := by omega
    simp only [List.foldl_cons, h1, ih, List.length_cons, h2]

end SchwabStream

/-! ### Claim theorems -/

open AggregateTimeFrames Account SchwabStream

/-- Evaluation of the aggregator on the spec's worked example. -/
theorem aggregate_example_eval :
    aggregate_time_frame exampleDf 5 = .ok [exampleBar1, exampleBar2] := by
  have h5 : (5 : ℤ).toNat = 5 := rfl
  norm_num [aggregate_time_frame, exampleDf, exampleRows, requiredCols,
    dropnaOHLC, resampleAll, binRange, minKey, maxKey, resampleRow, groupRows,
    foldMaxQ, foldMinQ, exampleBar1, exampleBar2, List.filter_cons,
    List.range_succ, max_def, min_def, h5,
    List.getLast?_cons_cons, List.getLast?_singleton]

/-- C1: every aggregated bar emitted by `aggregate_time_frame` has open equal
to the first raw open of its wall-clock-aligned bucket, high the attained
maximum raw high, low the attained minimum raw low, close the last raw
close, and volume the sum of raw volumes over the bucket's constituent raw
bars (each constituent lying inside the bucket's aligned window); and the
worked example — 10 one-minute bars with open/high/low/close = i/(i+1)/i/(i+1)
and volume 100, timeframe 5 — yields 2 bars, the first with open 0, high 5,
low 0, close 5, volume 500. -/
theorem aggregate_ohlcv_fields_and_example :
    (∀ (df : DataFrame) (T : ℤ) (out : List ResampledRow),
      aggregate_time_frame df T = .ok out → ∀ r ∈ out,
      groupRows T.toNat r.key df.rows ≠ [] ∧
      r.«open» = (groupRows T.toNat r.key df.rows).head?.map (·.«open») ∧
      (∃ m, r.high = some m ∧
        m ∈ (groupRows T.toNat r.key df.rows).map (·.high) ∧
        ∀ y ∈ (groupRows T.toNat r.key df.rows).map (·.high), y ≤ m) ∧
      (∃ m, r.low = some m ∧
        m ∈ (groupRows T.toNat r.key df.rows).map (·.low) ∧
        ∀ y ∈ (groupRows T.toNat r.key df.rows).map (·.low), m ≤ y) ∧
      r.close = (groupRows T.toNat r.key df.rows).getLast?.map (·.close) ∧
      r.volume = ((groupRows T.toNat r.key df.rows).map (·.volume)).sum ∧
      ∀ r' ∈ groupRows T.toNat r.key df.rows,
        r.key * T.toNat ≤ r'.ts ∧ r'.ts < (r.key + 1) * T.toNat) ∧
    aggregate_time_frame exampleDf 5 = .ok [exampleBar1, exampleBar2] :=
  ⟨fun df T out hok r hr => aggregate_mem_spec df T out hok r hr,
   aggregate_example_eval⟩

/-- Witness for C1: the general bucket-field property instantiated at the
worked example's first output bar. -/
theorem aggregate_ohlcv_fields_and_example_witness :
    groupRows (5 : ℤ).toNat exampleBar1.key exampleDf.rows ≠ [] ∧
    exampleBar1.«open» =
      (groupRows (5 : ℤ).toNat exampleBar1.key exampleDf.rows).head?.map
        (·.«open») ∧
    (∃ m, exampleBar1.high = some m ∧
      m ∈ (groupRows (5 : ℤ).toNat exampleBar1.key exampleDf.rows).map
        (·.high) ∧
      ∀ y ∈ (groupRows (5 : ℤ).toNat exampleBar1.key exampleDf.rows).map
        (·.high), y ≤ m) ∧
    (∃ m, exampleBar1.low = some m ∧
      m ∈ (groupRows (5 : ℤ).toNat exampleBar1.key exampleDf.rows).map
        (·.low) ∧
      ∀ y ∈ (groupRows (5 : ℤ).toNat exampleBar1.key exampleDf.rows).map
        (·.low), m ≤ y) ∧
    exampleBar1.close =
      (groupRows (5 : ℤ).toNat exampleBar1.key exampleDf.rows).getLast?.map
        (·.close) ∧
    exampleBar1.volume =
      ((groupRows (5 : ℤ).toNat exampleBar1.key exampleDf.rows).map
        (·.volume)).sum ∧
    ∀ r' ∈ groupRows (5 : ℤ).toNat exampleBar1.key exampleDf.rows,
      exampleBar1.key * (5 : ℤ).toNat ≤ r'.ts ∧
      r'.ts < (exampleBar1.key + 1) * (5 : ℤ).toNat :=
  aggregate_ohlcv_fields_and_example.1 exampleDf 5 [exampleBar1, exampleBar2]
    aggregate_example_eval exampleBar1 (List.mem_cons_self _ _)

/-- C2 (code bug evidence): a buffer of 6 consecutive one-minute bars
aggregated at timeframe 5 emits 2 bars, the second backed by a single raw
bar — the trailing under-full bucket is not dropped, contradicting the
claim that every emitted bar is backed by exactly `timeframe` raw bars. -/
theorem aggregate_emits_underfull_trailing_bucket :
    aggregate_time_frame underfullDf 5 = .ok [exampleBar1, trailingBar] ∧
    (groupRows 5 115 underfullDf.rows).length = 1 ∧
    (groupRows 5 114 underfullDf.rows).length = 5 ∧
    underfullDf.rows.length = 6 := by
  refine ⟨?_, by decide, by decide, rfl⟩
  have h5 : (5 : ℤ).toNat = 5 := rfl
  norm_num [aggregate_time_frame, underfullDf, underfullRows, requiredCols,
    dropnaOHLC, resampleAll, binRange, minKey, maxKey, resampleRow, groupRows,
    foldMaxQ, foldMinQ, exampleBar1, trailingBar, List.filter_cons,
    List.range_succ, max_def, min_def, h5,
    List.getLast?_cons_cons, List.getLast?_singleton]

/-- A raw bar used as the re-delivered message in the C3 counterexample. -/
def dupBar : RawRow := ⟨570, "SPY", 1, 1, 1, 1, 100⟩

/-- C3 counterexample: delivering the same bar twice through the buffer
update of `on_bar` yields a 2-element buffer, not the 1-element buffer that
delivering it once produces — ingestion is not deduplicated by timestamp. -/
theorem redelivered_bar_appended_again :
    (append_bar [] dupBar).length = 1 ∧
    (append_bar (append_bar [] dupBar) dupBar).length = 2 ∧
    append_bar (append_bar [] dupBar) dupBar ≠ append_bar [] dupBar := by
  have h1 : (append_bar [] dupBar).length = 1 := by
    rw [append_bar_length]
    rfl
  have h2 : (append_bar (append_bar [] dupBar) dupBar).length = 2 := by
    rw [append_bar_length, h1]
  refine ⟨h1, h2, ?_⟩
  intro h
  have hlen := congrArg List.length h
  rw [h1, h2] at hlen
  exact absurd hlen (by norm_num)

/-- C3 amended: re-delivering a bar (in particular one whose timestamp is
already present) appends it again — the buffer grows by exactly one row and
the count of rows carrying the delivered timestamp increases by one — while
the sort keeps the buffer ordered (non-strictly) by timestamp. -/
theorem append_bar_grows_and_stays_sorted :
    ∀ (buf : List RawRow) (bar : RawRow),
      (append_bar buf bar).length = buf.length + 1 ∧
      (append_bar buf bar).countP (fun r => r.ts == bar.ts) =
        buf.countP (fun r => r.ts == bar.ts) + 1 ∧
      List.Pairwise (fun a b => a.ts ≤ b.ts) (append_bar buf bar) := by
  intro buf bar
  refine ⟨append_bar_length buf bar, ?_, append_bar_sorted buf bar⟩
  have hp := List.mergeSort_perm (buf ++ [bar]) tsLe
  rw [show append_bar buf bar = (buf ++ [bar]).mergeSort tsLe from rfl]
  rw [hp.countP_eq]
  simp [List.countP_append, List.countP_cons]

/-- C4: a SELL cycle of `send_strategy_orders` always ends with zero
ActivePosition rows for the strategy id — for every starting table and
every combination of per-order lookup outcomes (sell/cancel results are
discarded by the code and do not appear in the state at all); in
particular, when every order lookup fails, no brokerage action is issued
and the rows are still cleared. -/
theorem sell_cycle_clears_all_rows :
    (∀ (db : List ActivePosition) (sid : ℤ) (price : ℚ)
        (lookup : String → Option OrderInfo),
      ((sellCycle db sid price lookup).1).filter
        (fun p => p.strategy_id = sid) = []) ∧
    (∀ (db : List ActivePosition) (sid : ℤ) (price : ℚ),
      (sellCycle db sid price (fun _ => none)).2 = []) := by
  constructor
  · intro db sid price lookup
    exact filter_not_filter (fun p => p.strategy_id = sid) db
  · intro db sid price
    show List.filterMap _ (get_order_id_list db sid) = []
    generalize get_order_id_list db sid = ids
    induction ids with
    | nil => rfl
    | cons i is ih => simp [List.filterMap_cons, ih]

/-- C5: a BUY invocation whose order placement fails (no order id returned)
leaves the ActivePosition table unchanged and returns `None`; there is no
retry — the cycle ends with that single outcome. -/
theorem buy_placement_failure_leaves_store :
    ∀ (db : List ActivePosition) (sid : ℤ) (qty price : ℚ),
      buyCycle db sid qty price none = (db, none) :=
  fun _ _ _ _ => rfl

/-- C6: `round_price` rounds every price strictly below 1.0 to 4 decimal
places and every price at or above 1.0 to 2 decimal places (Python `round`
semantics on the exact double values); in particular the double `0.12345`
rounds to `0.1235`, the double `12.345` rounds to `12.35`, a price of
exactly 0 stays 0, `send_orders` applies `round_price` to its outbound
price, and a rounded price of 0 designates a market order. -/
theorem round_price_policy :
    (∀ p : ℚ, p < 1 → round_price p = pyRound 4 p) ∧
    (∀ p : ℚ, 1 ≤ p → round_price p = pyRound 2 p) ∧
    round_price double_0_12345 = 1235 / 10000 ∧
    round_price double_12_345 = 1235 / 100 ∧
    round_price 0 = 0 ∧
    (∀ p : ℚ, (send_orders_pricing p).1 = round_price p) ∧
    send_orders_pricing 0 = (0, OrderType.MARKET) := by
  refine ⟨round_price_below_one, round_price_at_least_one,
    round_price_double_0_12345, round_price_double_12_345, round_price_zero,
    fun _ => rfl, ?_⟩
  simp [send_orders_pricing, round_price_zero]

/-- Witness for C6: the two rounding branches applied at concrete prices. -/
theorem round_price_policy_witness :
    ((1 : ℚ) / 2 < 1 ∧ round_price (1 / 2) = pyRound 4 (1 / 2)) ∧
    ((1 : ℚ) ≤ 2 ∧ round_price 2 = pyRound 2 2) :=
  ⟨⟨by norm_num, round_price_policy.1 (1 / 2) (by norm_num)⟩,
   ⟨by norm_num, round_price_policy.2.1 2 (by norm_num)⟩⟩

/-- Malformed input of the C7 counterexample: empty rows, non-datetime
index, and almost all required columns missing. -/
def malformedEmptyDf : DataFrame := ⟨["symbol"], false, []⟩

/-- C7 counterexample: an input that is malformed in all three claimed ways
at once (non-positive timeframe 0, missing required columns, non-datetime
index) returns the silent empty result instead of raising, because the
emptiness fast path runs before any validation. -/
theorem aggregate_malformed_silent_empty :
    ((0 : ℤ) ≤ 0 ∧ malformedEmptyDf.indexIsDatetime = false ∧
      "volume" ∈ requiredCols ∧
      malformedEmptyDf.cols.contains "volume" = false) ∧
    aggregate_time_frame malformedEmptyDf 0 = .ok [] ∧
    ∀ msg, aggregate_time_frame malformedEmptyDf 0 ≠ .error msg := by
  refine ⟨⟨le_refl 0, rfl, by simp [requiredCols], rfl⟩, rfl, ?_⟩
  intro msg h
  rw [show aggregate_time_frame malformedEmptyDf 0 = .ok [] from rfl] at h
  exact Except.noConfusion h

/-- C7 amended: the validation is ordered.  An empty buffer returns the
empty result before any check; for a nonempty buffer a non-datetime index
raises, then a non-positive timeframe raises; a buffer shorter than the
timeframe returns the empty result before the column check; only then are
missing required columns detected.  No ordering check exists at all. -/
theorem aggregate_validation_check_order :
    (∀ (df : DataFrame) (T : ℤ), df.rows = [] →
      aggregate_time_frame df T = .ok []) ∧
    (∀ (df : DataFrame) (T : ℤ), df.rows ≠ [] → df.indexIsDatetime = false →
      aggregate_time_frame df T =
        .error "DataFrame index must be a DatetimeIndex") ∧
    (∀ (df : DataFrame) (T : ℤ), df.rows ≠ [] → df.indexIsDatetime = true →
      T ≤ 0 → aggregate_time_frame df T = .error "Aggregation must be positive") ∧
    (∀ (df : DataFrame) (T : ℤ), df.rows ≠ [] → df.indexIsDatetime = true →
      0 < T → df.rows.length < T.toNat → aggregate_time_frame df T = .ok []) ∧
    (∀ (df : DataFrame) (T : ℤ) (c : String), df.rows ≠ [] →
      df.indexIsDatetime = true → 0 < T → T.toNat ≤ df.rows.length →
      c ∈ requiredCols → df.cols.contains c = false →
      aggregate_time_frame df T = .error "Missing required columns") := by
  refine ⟨?_, ?_, ?_, ?_, ?_⟩
  · intro df T h
    simp [aggregate_time_frame, h]
  · intro df T h1 h2
    simp [aggregate_time_frame, List.isEmpty_iff, h1, h2]
  · intro df T h1 h2 h3
    simp [aggregate_time_frame, List.isEmpty_iff, h1, h2, h3]
  · intro df T h1 h2 h3 h4
    have h3' : ¬T ≤ 0 := not_le.mpr h3
    simp [aggregate_time_frame, List.isEmpty_iff, h1, h2, h3', h4]
  · intro df T c h1 h2 h3 h4 hc hcontains
    have h3' : ¬T ≤ 0 := not_le.mpr h3
    have h4' : ¬df.rows.length < T.toNat := not_lt.mpr h4
    have hex : ∃ x ∈ requiredCols, x ∉ df.cols :=
      ⟨c, hc, by simpa using hcontains⟩
    simp [aggregate_time_frame, List.isEmpty_iff, h1, h2, h3', h4', hex]

/-- Witness for C7 amended: every branch of the ordered validation hit at a
concrete input. -/
theorem aggregate_validation_check_order_witness :
    aggregate_time_frame ⟨requiredCols, false, []⟩ 5 = .ok [] ∧
    aggregate_time_frame ⟨requiredCols, false, [dupBar]⟩ 5 =
      .error "DataFrame index must be a DatetimeIndex" ∧
    aggregate_time_frame ⟨requiredCols, true, [dupBar]⟩ (-3) =
      .error "Aggregation must be positive" ∧
    aggregate_time_frame ⟨requiredCols, true, [dupBar]⟩ 5 = .ok [] ∧
    aggregate_time_frame ⟨["symbol"], true, [dupBar]⟩ 1 =
      .error "Missing required columns" :=
  ⟨aggregate_validation_check_order.1 ⟨requiredCols, false, []⟩ 5 rfl,
   aggregate_validation_check_order.2.1 ⟨requiredCols, false, [dupBar]⟩ 5
     (by simp) rfl,
   aggregate_validation_check_order.2.2.1 ⟨requiredCols, true, [dupBar]⟩ (-3)
     (by simp) rfl (by norm_num),
   aggregate_validation_check_order.2.2.2.1 ⟨requiredCols, true, [dupBar]⟩ 5
     (by simp) rfl (by norm_num) (by norm_num),
   aggregate_validation_check_order.2.2.2.2 ⟨["symbol"], true, [dupBar]⟩ 1
     "open" (by simp) rfl (by norm_num) (by norm_num)
     (by simp [requiredCols]) rfl⟩

/-- A matching bar at minute 31 — not a multiple of timeframe 5. -/
def offBoundaryBar : RawRow := ⟨571, "SPY", 1, 2, 1, 2, 100⟩

/-- Another off-boundary bar (minute 32), used in the C8 witness. -/
def offBoundaryBar2 : RawRow := ⟨572, "SPY", 2, 3, 2, 3, 100⟩

/-- A matching bar at minute 35 — a multiple of timeframe 5. -/
def boundaryBar : RawRow := ⟨575, "SPY", 1, 2, 1, 2, 100⟩

/-- C8 counterexample: with the latch unset, a matching bar at a
non-boundary minute is discarded entirely — the buffer stays empty instead
of growing by the delivered bar as the claim's "buffered" requires (no
aggregation or evaluation occurs either). -/
theorem preboundary_bar_not_buffered :
    on_bar_step 5 ⟨[], false⟩ offBoundaryBar =
      ⟨⟨[], false⟩, none, false⟩ ∧
    (on_bar_step 5 ⟨[], false⟩ offBoundaryBar).state.df ≠ [offBoundaryBar] := by
  refine ⟨rfl, ?_⟩
  intro h
  rw [show (on_bar_step 5 ⟨[], false⟩ offBoundaryBar).state.df =
    ([] : List RawRow) from rfl] at h
  exact List.noConfusion h

/-- C8 amended: while the latch is unset, a matching bar at a non-boundary
minute is dropped (state, buffer included, unchanged; no aggregation or
evaluation); a matching bar at a boundary minute sets the latch; and once
set the latch is never unset. -/
theorem boundary_latch_behavior :
    (∀ (T : ℕ) (st : StratState) (bar : RawRow), st.itsTime = false →
      its_time (bar.ts % 60) T = false →
      on_bar_step T st bar = ⟨st, none, false⟩) ∧
    (∀ (T : ℕ) (st : StratState) (bar : RawRow), st.itsTime = false →
      its_time (bar.ts % 60) T = true →
      (on_bar_step T st bar).state.itsTime = true) ∧
    (∀ (T : ℕ) (st : StratState) (bar : RawRow), st.itsTime = true →
      (on_bar_step T st bar).state.itsTime = true) := by
  refine ⟨?_, ?_, ?_⟩
  · intro T st bar h1 h2
    simp [on_bar_step, h1, h2]
  · intro T st bar h1 h2
    simp [on_bar_step, h1, h2]
  · intro T st bar h1
    simp [on_bar_step, h1]

/-- Witness for C8 amended: the three latch behaviors at concrete states
and bars. -/
theorem boundary_latch_behavior_witness :
    on_bar_step 5 ⟨[], false⟩ offBoundaryBar2 = ⟨⟨[], false⟩, none, false⟩ ∧
    (on_bar_step 5 ⟨[], false⟩ boundaryBar).state.itsTime = true ∧
    (on_bar_step 5 ⟨[], true⟩ offBoundaryBar2).state.itsTime = true :=
  ⟨boundary_latch_behavior.1 5 ⟨[], false⟩ offBoundaryBar2 rfl rfl,
   boundary_latch_behavior.2.1 5 ⟨[], false⟩ boundaryBar rfl rfl,
   boundary_latch_behavior.2.2 5 ⟨[], true⟩ offBoundaryBar2 rfl⟩

/-- C9 counterexample: a configured name that resolves to no function makes
startup return normally with a failure count of 1 (nothing fatal), and at
evaluation time the missing cached function is detected per-evaluation and
the cycle skipped — contradicting "hard startup failure, never deferred to
per-evaluation". -/
theorem unresolved_strategy_not_fatal :
    importAllStrategies (Φ := Unit) (fun _ => none) ["ghost"] = ([], 0, 1) ∧
    dispatchStrategy ([] : List (String × Unit)) "ghost" =
      DispatchOutcome.skippedMissing := by
  constructor
  · rfl
  · rfl

/-- C9 amended: unresolved names at startup are only counted and logged —
success and failure counts always total the number of unique configured
names, and with a resolver that fails on every name startup still returns
normally with an empty cache; at evaluation time a cache miss is handled by
skipping that strategy's cycle. -/
theorem unresolved_strategy_counted_and_skipped :
    (∀ (Φ : Type) (resolver : String → Option Φ) (names : List String),
      (importAllStrategies resolver names).2.1 +
        (importAllStrategies resolver names).2.2 = names.dedup.length) ∧
    (∀ names : List String,
      importAllStrategies (Φ := Unit) (fun _ => none) names =
        ([], 0, names.dedup.length)) ∧
    (∀ (Φ : Type) (cache : List (String × Φ)) (name : String),
      cache.lookup name = none →
      dispatchStrategy cache name = DispatchOutcome.skippedMissing) := by
  refine ⟨?_, ?_, ?_⟩
  · intro Φ resolver names
    simpa using importAll_count_aux resolver names.dedup ([], 0, 0)
  · intro names
    simpa using importAll_fail_all_aux (Φ := Unit) names.dedup 0 0
  · intro Φ cache name h
    simp [dispatchStrategy, h]

/-- Witness for C9 amended: a cache miss on a populated cache skips the
evaluation. -/
theorem unresolved_strategy_counted_and_skipped_witness :
    dispatchStrategy [("smaCross", ())] "ghost" =
      DispatchOutcome.skippedMissing :=
  unresolved_strategy_counted_and_skipped.2.2 Unit [("smaCross", ())] "ghost"
    rfl

/-- C10: a strategy configured with timeframe 1 hands the raw one-minute
buffer straight to the evaluation stage — the series source is the `raw`
constructor over the updated buffer, so `aggregate_time_frame` (and its
validation and bucket filtering) is never invoked for such an instance. -/
theorem timeframe_one_uses_raw_buffer :
    ∀ (st : StratState) (bar : RawRow),
      (on_bar_step 1 st bar).series =
        some (SeriesSource.raw (append_bar st.df bar)) ∧
      (on_bar_step 1 st bar).state.df = append_bar st.df bar := by
  intro st bar
  have hit : its_time (bar.ts % 60) 1 = true := by
    simp [its_time, Nat.mod_one]
  cases hst : st.itsTime <;>
    exact ⟨by simp [on_bar_step, hst, hit], by simp [on_bar_step, hst, hit]⟩

end PublicAutoTrade
